import Mathlib

/-!
Verification development for the C4PSeniorkeywordDetector scam-text detector.

The embedding below translates the detection engine of the repository:
* `src/scanner.ts` — `KeywordScanner` (categories, `scan`, `calculateOverallSeverity`,
  `addCustomKeyword`, `removeKeyword`) and `AIClassifier` (`classifyWithAI`, `mockClassify`);
* `src/background.ts` — the pure combination core of `analyzeText`
  (`normalizeScore`, `determineOverallSeverity`, `generateRecommendation`);
* `src/unnamed/part_002` — the alternative combiner `combineResults`.

Strings are modelled as Lean `String`/`List Char`; JavaScript numbers used by the
detector are exact here: the keyword score is integer arithmetic (`Nat`), the
classifier scores and blend weights are modelled as rationals (`ℚ`).
The JavaScript regex `\b<escaped keyword>\b` with flags `gi` is modelled by
`matchPositions`: a left-to-right scan collecting non-overlapping, case-insensitive,
whole-word occurrences (`\w` is `[A-Za-z0-9_]`, matching `wordChar`).
-/

/-- The severity enumeration from `src/unnamed/part_001` (`types.ts`). -/
inductive Severity
  | low
  | medium
  | high
  | critical
deriving DecidableEq, Repr

/-- A keyword category from `types.ts`: phrases sharing one severity and weight. -/
structure KeywordCategory where
  keywords : List String
  severity : Severity
  weight : Nat
deriving DecidableEq, Repr

/-- One occurrence of a matched phrase (`MatchDetail` in `types.ts`). -/
structure MatchDetail where
  keyword : String
  severity : Severity
  position : Nat
  context : String
deriving DecidableEq, Repr

/-- Output of one scan (`DetectionResult` in `types.ts`). -/
structure DetectionResult where
  flagged : Bool
  score : Nat
  «matches» : List String
  severity : Severity
  details : List MatchDetail
deriving DecidableEq, Repr

/-- Output of the classifier (`AIVerdict` in `types.ts`). -/
structure AIVerdict where
  isSuspicious : Bool
  reason : String
  confidence : ℚ
deriving DecidableEq, Repr

/-- The combined analysis (`CombinedAnalysis` in `types.ts`).  `timestamp` is the
`Date.now()` value, passed in as a parameter here. -/
structure CombinedAnalysis where
  isSuspicious : Bool
  overallSeverity : Severity
  keywordDetection : DetectionResult
  aiDetection : AIVerdict
  finalScore : ℚ
  recommendation : String
  timestamp : Nat
  messageText : String
deriving DecidableEq, Repr

/-- JavaScript `String.prototype.toLowerCase` restricted to the ASCII range the
keyword lists use (the same folding a case-insensitive regex applies). -/
def toLowerCase (s : String) : String := String.mk (s.data.map Char.toLower)

/-- A regex word character `\w`, i.e. `[A-Za-z0-9_]` — determines `\b`. -/
def wordChar (c : Char) : Bool := c.isAlpha || c.isDigit || c == '_'

/-- Whether the character at index `p` of `text` exists and is a word character. -/
def charIsWordAt (text : List Char) (p : Nat) : Bool :=
  decide (p < text.length) && wordChar (text.getD p ' ')

/-- The regex `\b` assertion at position `p`: exactly one of the adjacent
characters (out of bounds counts as non-word) is a word character. -/
def isWordBoundary (text : List Char) (p : Nat) : Bool :=
  (decide (0 < p) && charIsWordAt text (p - 1)) != charIsWordAt text p

/-- Case-insensitive literal match of `kw` at index `i` of `text` (the keyword is
regex-escaped in the source, so it matches as literal text). -/
def matchesAt (text kw : List Char) (i : Nat) : Bool :=
  decide (i + kw.length ≤ text.length) &&
    ((text.drop i).take kw.length).map Char.toLower == kw.map Char.toLower

/-- A whole-word occurrence of `kw` at index `i`: the regex `\b<kw>\b` matches there. -/
def wholeWordAt (text kw : List Char) (i : Nat) : Bool :=
  matchesAt text kw i && isWordBoundary text i && isWordBoundary text (i + kw.length)

/-- Worker for `matchPositions`: the `while ((match = regex.exec(text)) !== null)` loop
with a global regex — after a match at `i` the search resumes at `i + kw.length`.
The fuel argument only makes the recursion structural; `text.length + 1` steps always
suffice because every step advances the position.  (On the empty keyword the
source loop would not terminate; `max kw.length 1` totalises that single case.) -/
def matchPositionsAux (text kw : List Char) : Nat → Nat → List Nat
  | _, 0 => []
  | i, fuel + 1 =>
    if text.length < i then []
    else if wholeWordAt text kw i then
      i :: matchPositionsAux text kw (i + max kw.length 1) fuel
    else matchPositionsAux text kw (i + 1) fuel

/-- All match positions of `\b<kw>\b` (flags `gi`) in `text`, left to right. -/
def matchPositions (text kw : List Char) : List Nat :=
  matchPositionsAux text kw 0 (text.length + 1)

/-- `KeywordScanner.extractContext`: ±30 characters around the match, with
ellipses marking clipped ends. -/
def extractContext (text : List Char) (position length : Nat) : String :=
  let start := position - 30
  let stop := min text.length (position + length + 30)
  let context := String.mk ((text.drop start).take (stop - start))
  let context := if 0 < start then "..." ++ context else context
  let context := if stop < text.length then context ++ "..." else context
  context

/-- The `severityScores` record of `KeywordScanner`. -/
def severityScores : Severity → Nat
  | .low => 1
  | .medium => 3
  | .high => 6
  | .critical => 10

/-- The `severityRanks` record inside `calculateOverallSeverity`. -/
def severityRanks : Severity → Nat
  | .low => 1
  | .medium => 2
  | .high => 3
  | .critical => 4

/-- `KeywordScanner.calculateOverallSeverity`: one pass computing the maximal rank
and the counts of critical and high details, then the escalation rule. -/
def calculateOverallSeverity (details : List MatchDetail) : Severity :=
  if details.length = 0 then .low
  else
    let acc := details.foldl (fun acc d =>
      (max acc.1 (severityRanks d.severity),
       if d.severity = .critical then acc.2.1 + 1 else acc.2.1,
       if d.severity = .high then acc.2.2 + 1 else acc.2.2)) (0, 0, 0)
    if 2 ≤ acc.2.1 ∨ (1 ≤ acc.2.1 ∧ 1 ≤ acc.2.2) then .critical
    else if acc.1 = 4 then .critical
    else if acc.1 = 3 then .high
    else if acc.1 = 2 then .medium
    else .low

/-- Building one `MatchDetail` as the scan loop does. -/
def mkDetail (t : List Char) (kw : String) (sev : Severity) (p : Nat) : MatchDetail :=
  { keyword := kw, severity := sev, position := p, context := extractContext t p kw.data.length }

/-- `matchedKeywords.add keyword` on the insertion-ordered set, modelled as a list. -/
def addMatched (ms : List String) (kw : String) : List String :=
  if ms.contains kw then ms else ms ++ [kw]

/-- Body of the inner `while` loop of `scan`: push the detail, record the phrase,
add `severityScores[category.severity] * category.weight` to the running score. -/
def posStep (t : List Char) (kw : String) (sev : Severity) (k : Nat)
    (acc : List MatchDetail × List String × Nat) (p : Nat) :
    List MatchDetail × List String × Nat :=
  (acc.1 ++ [mkDetail t kw sev p], addMatched acc.2.1 kw, acc.2.2 + k)

/-- The per-keyword loop of `scan`. -/
def kwStep (t : List Char) (sev : Severity) (k : Nat)
    (acc : List MatchDetail × List String × Nat) (kw : String) :
    List MatchDetail × List String × Nat :=
  (matchPositions t kw.data).foldl (posStep t kw sev k) acc

/-- The per-category loop of `scan`. -/
def catStep (t : List Char) (acc : List MatchDetail × List String × Nat)
    (cat : KeywordCategory) : List MatchDetail × List String × Nat :=
  cat.keywords.foldl (kwStep t cat.severity (severityScores cat.severity * cat.weight)) acc

/-- `KeywordScanner.scan`, as a function of the current category configuration.
(The source also computes `normalizedText = text.toLowerCase()` but never uses it:
the regexes run over the original text with the `i` flag.) -/
def scan (cats : List KeywordCategory) (text : String) : DetectionResult :=
  let t := text.data
  let res := cats.foldl (catStep t) ([], [], 0)
  { flagged := decide (0 < res.1.length),
    score := res.2.2,
    «matches» := res.2.1,
    severity := calculateOverallSeverity res.1,
    details := res.1 }

/-- The built-in `categories` field of `KeywordScanner`, transcribed verbatim. -/
def categories : List KeywordCategory :=
  [ { keywords :=
        ["verify account", "verify your account", "account suspended", "account locked",
         "confirm identity", "update payment", "payment failed", "billing problem",
         "unusual activity", "suspicious activity", "unauthorized access",
         "security alert", "verify payment", "confirm payment"],
      severity := .critical,
      weight := 10 },
    { keywords :=
        ["urgent", "immediate action", "act now", "limited time", "expires today",
         "verify now", "click here now", "respond immediately", "final notice",
         "last chance", "time sensitive", "action required"],
      severity := .high,
      weight := 8 },
    { keywords :=
        ["gift card", "gift cards", "iTunes card", "Google Play card", "Amazon card",
         "prepaid card", "wire transfer", "send money", "western union", "moneygram",
         "bitcoin", "cryptocurrency", "crypto wallet"],
      severity := .critical,
      weight := 10 },
    { keywords :=
        ["password", "social security", "ssn", "social security number",
         "bank account", "routing number", "credit card", "cvv", "pin number",
         "bank login", "online banking", "account number", "tax id"],
      severity := .critical,
      weight := 10 },
    { keywords :=
        ["IRS", "internal revenue service", "tax refund", "tax return",
         "tax investigation", "federal agent", "government official",
         "department of justice", "FBI", "police department"],
      severity := .high,
      weight := 9 },
    { keywords :=
        ["Apple ID", "iCloud account", "Microsoft account", "Google account",
         "Amazon account", "PayPal account", "Netflix account", "Facebook account"],
      severity := .high,
      weight := 8 },
    { keywords :=
        ["click this link", "click here", "download attachment", "open attachment",
         "verify here", "login here", "reset password", "change password",
         "update information", "confirm details"],
      severity := .medium,
      weight := 6 },
    { keywords :=
        ["congratulations", "you've won", "prize", "lottery", "winner",
         "claim your", "free gift", "bonus", "reward", "compensation"],
      severity := .medium,
      weight := 7 },
    { keywords :=
        ["refund", "reimbursement", "overpayment", "owed money",
         "unclaimed funds", "pending payment", "payment processing"],
      severity := .medium,
      weight := 6 },
    { keywords :=
        ["suspended", "deactivated", "disabled", "restricted", "blocked",
         "terminated", "cancelled", "expired", "invalid"],
      severity := .medium,
      weight := 5 },
    { keywords :=
        ["confirm", "verify", "validate", "authenticate", "review",
         "update", "renew", "reactivate"],
      severity := .low,
      weight := 3 } ]

/-- Helper of `addCustomKeyword`: mutate the first category of the given severity,
appending the (already lowercased) phrase unless it is already present. -/
def addToFirst : List KeywordCategory → Severity → String → List KeywordCategory
  | [], _, _ => []
  | c :: cs, sev, nkw =>
    if c.severity = sev then
      (if c.keywords.contains nkw then c else { c with keywords := c.keywords ++ [nkw] }) :: cs
    else c :: addToFirst cs sev nkw

/-- `KeywordScanner.addCustomKeyword`: reuse the first category with this severity,
or push a fresh one; store the phrase lowercased if not already present. -/
def addCustomKeyword (cats : List KeywordCategory) (keyword : String)
    (severity : Severity) (weight : Nat) : List KeywordCategory :=
  let nkw := toLowerCase keyword
  if cats.any (fun c => c.severity = severity) then addToFirst cats severity nkw
  else cats ++ [{ keywords := [nkw], severity := severity, weight := weight }]

/-- `Array.prototype.splice` at `indexOf`: remove the first occurrence, if any. -/
def removeOnce : List String → String → List String × Bool
  | [], _ => ([], false)
  | y :: ys, x =>
    if y = x then (ys, true)
    else
      let r := removeOnce ys x
      (y :: r.1, r.2)

/-- Worker for `removeKeyword`: splice the normalized phrase out of every category,
recording whether anything was removed. -/
def removeKeywordAux : List KeywordCategory → String → List KeywordCategory × Bool
  | [], _ => ([], false)
  | c :: cs, n =>
    let k := removeOnce c.keywords n
    let rest := removeKeywordAux cs n
    ({ c with keywords := k.1 } :: rest.1, k.2 || rest.2)

/-- `KeywordScanner.removeKeyword`: lowercase the argument, then remove exact
occurrences of that lowercased string from every category. -/
def removeKeyword (cats : List KeywordCategory) (keyword : String) :
    List KeywordCategory × Bool :=
  removeKeywordAux cats (toLowerCase keyword)

/-- JavaScript `String.prototype.includes` on char lists. -/
def containsSub (hay needle : List Char) : Bool :=
  match hay with
  | [] => needle.isEmpty
  | _ :: rest => needle.isPrefixOf hay || containsSub rest needle

/-- `lowerMsg.includes(sub)` as used by `mockClassify`. -/
def includesStr (s sub : String) : Bool := containsSub s.data sub.data

/-- The number of matches of the global regex `https?:\/\/` (case-sensitive, no
`i` flag).  Because neither URL scheme contains a second `h`, successive matches
can never overlap, so counting prefix occurrences position by position agrees
with the non-overlapping `g`-flag match count. -/
def countUrls : List Char → Nat
  | [] => 0
  | l@(_ :: rest) =>
    (if "https://".data.isPrefixOf l || "http://".data.isPrefixOf l then 1 else 0) +
      countUrls rest

/-- One heuristic signal of `mockClassify`: when `cond` holds, add `inc` to the
running suspicion score and append the reason fragment. -/
def signalStep (cond : Bool) (inc : ℚ) (frag : String) (acc : ℚ × List String) :
    ℚ × List String :=
  if cond then (acc.1 + inc, acc.2 ++ [frag]) else acc

/-- The signal accumulation of `AIClassifier.mockClassify`: the accumulated
suspicion score and the list of triggered reason fragments, in source order. -/
def mockSignals (message : String) : ℚ × List String :=
  let lowerMsg := toLowerCase message
  let acc : ℚ × List String := (0, [])
  let acc := signalStep (includesStr lowerMsg "urgent" || includesStr lowerMsg "immediate")
    (3/10) "Uses urgent language" acc
  let acc := signalStep (includesStr lowerMsg "click" && includesStr lowerMsg "link")
    (25/100) "Contains clickable link request" acc
  let acc := signalStep (includesStr lowerMsg "verify" || includesStr lowerMsg "confirm")
    (2/10) "Requests verification" acc
  let acc := signalStep
    (includesStr lowerMsg "account" &&
      (includesStr lowerMsg "suspend" || includesStr lowerMsg "lock"))
    (4/10) "Threatens account suspension" acc
  let acc := signalStep
    (includesStr lowerMsg "password" || includesStr lowerMsg "credit card" ||
      includesStr lowerMsg "ssn")
    (5/10) "Requests sensitive information" acc
  let acc := signalStep
    (includesStr lowerMsg "gift card" || includesStr lowerMsg "wire transfer")
    (6/10) "Requests unusual payment method" acc
  let urlCount := countUrls message.data
  let acc := signalStep (decide (2 ≤ urlCount)) (2/10) "Contains multiple URLs" acc
  let acc := signalStep (decide (500 < message.length) && decide ((3:ℚ)/10 < acc.1))
    (1/10) "Long message with suspicious content" acc
  acc

/-- `AIClassifier.mockClassify`: the heuristic evaluator. -/
def mockClassify (message : String) : AIVerdict :=
  let acc := mockSignals message
  let suspicionScore := acc.1
  let reasons := acc.2
  let isSuspicious := decide ((4:ℚ)/10 ≤ suspicionScore)
  let confidence := min suspicionScore 1
  { isSuspicious := isSuspicious,
    reason := if isSuspicious then String.intercalate "; " reasons
              else "No significant suspicious patterns detected",
    confidence := confidence }

/-- A successful remote response body, all fields optional (`data.x || default`).
`none` stands for a missing/undefined field. -/
structure RemoteData where
  isSuspicious : Option Bool
  reason : Option String
  confidence : Option ℚ
deriving DecidableEq, Repr

/-- The verdict built from a successful delegated response:
`data.isSuspicious || false`, `data.reason || 'No explanation provided'`,
`data.confidence || 0.5`.  JavaScript `||` also replaces falsy present values:
the empty string and the number `0` fall back to the defaults. -/
def remoteVerdict (data : RemoteData) : AIVerdict :=
  { isSuspicious := data.isSuspicious.getD false,
    reason :=
      match data.reason with
      | none => "No explanation provided"
      | some s => if s = "" then "No explanation provided" else s,
    confidence :=
      match data.confidence with
      | none => 1/2
      | some c => if c = 0 then 1/2 else c }

/-- Outcome of the delegated `fetch`: `failure` covers every path that throws —
transport error, non-ok status (`AI API error`), and a malformed response body —
all of which land in the `catch` block; `success` carries the parsed body. -/
inductive FetchOutcome
  | failure
  | success (data : RemoteData)
deriving DecidableEq, Repr

/-- The `AIClassifier` configuration (endpoint, credential, mock-mode flag). -/
structure ClassifierConfig where
  apiEndpoint : String
  apiKey : String
  mockMode : Bool
deriving DecidableEq, Repr

/-- `AIClassifier.classifyWithAI`.  The network interaction is abstracted by the
`outcome` oracle; the function is total — no error is ever propagated, every
failure falls back to the heuristic evaluator. -/
def classifyWithAI (cfg : ClassifierConfig) (outcome : FetchOutcome)
    (message : String) : AIVerdict :=
  if cfg.mockMode || cfg.apiEndpoint = "" then mockClassify message
  else
    match outcome with
    | .failure => mockClassify message
    | .success data => remoteVerdict data

/-- `background.ts` `normalizeScore`: cap the raw keyword score at the expected
maximum of 200 and clamp to at most 1. -/
def normalizeScore (rawScore : ℚ) : ℚ := min (rawScore / 200) 1

/-- `background.ts` `determineOverallSeverity`.  Note that `score` here is the
blended combined score, not the classifier confidence. -/
def determineOverallSeverity (keywordSeverity : Severity) (aiSuspicious : Bool)
    (score : ℚ) : Severity :=
  if keywordSeverity = .critical ∨ (aiSuspicious ∧ (8:ℚ)/10 ≤ score) then .critical
  else if keywordSeverity = .high ∨ (aiSuspicious ∧ (6:ℚ)/10 ≤ score) then .high
  else if keywordSeverity = .medium ∨ (4:ℚ)/10 ≤ score then .medium
  else .low

/-- `background.ts` `generateRecommendation`. -/
def generateRecommendation (isSuspicious : Bool) (severity : Severity)
    (keywordResult : DetectionResult) (aiResult : AIVerdict) : String :=
  if !isSuspicious then
    "This message appears safe. No significant scam indicators detected."
  else
    let recs := [if severity = .critical then "⛔ HIGH RISK: Do not respond or take any action."
                 else if severity = .high then "⚠️ WARNING: Exercise extreme caution."
                 else "⚡ CAUTION: This message shows some suspicious signs."]
    let recs := if keywordResult.«matches».any
        (fun m => includesStr m "gift card" || includesStr m "wire transfer") then
      recs ++ ["Never pay with gift cards or wire transfers for legitimate services."]
    else recs
    let recs := if keywordResult.«matches».any
        (fun m => includesStr m "password" || includesStr m "social security") then
      recs ++ ["Never share passwords or personal information via message."]
    else recs
    let recs := if keywordResult.«matches».any
        (fun m => includesStr m "urgent" || includesStr m "immediate") then
      recs ++ ["Legitimate organizations rarely demand immediate action."]
    else recs
    let recs := if aiResult.isSuspicious then
      recs ++ ["AI Analysis: " ++ aiResult.reason]
    else recs
    let recs := recs ++
      ["When in doubt, contact the organization directly using official contact information."]
    String.intercalate " " recs

/-- The pure combination core of `background.ts` `analyzeText` (lines 73-90):
everything after the scanner and classifier results are in hand, with the
`Date.now()` timestamp passed as `now`. -/
def analyzeTextCore (keywordResult : DetectionResult) (aiResult : AIVerdict)
    (text : String) (now : Nat) : CombinedAnalysis :=
  let keywordScore := normalizeScore (keywordResult.score : ℚ)
  let aiScore := aiResult.confidence
  let combinedScore := keywordScore * (6/10) + aiScore * (4/10)
  let isSuspicious := decide ((5:ℚ)/10 ≤ combinedScore) ||
    decide (keywordResult.severity = Severity.critical) || aiResult.isSuspicious
  let overallSeverity :=
    determineOverallSeverity keywordResult.severity aiResult.isSuspicious combinedScore
  let recommendation :=
    generateRecommendation isSuspicious overallSeverity keywordResult aiResult
  { isSuspicious := isSuspicious,
    overallSeverity := overallSeverity,
    keywordDetection := keywordResult,
    aiDetection := aiResult,
    finalScore := combinedScore,
    recommendation := recommendation,
    timestamp := now,
    messageText := text }

/-- `combineResults` from `src/unnamed/part_002`: the alternative combiner.
It blends the raw keyword score with the confidence scaled to 0-100, flags on
`keywordResult.flagged || aiResult.isSuspicious`, and escalates severity with
strict thresholds on the classifier confidence. -/
def combineResults (keywordResult : DetectionResult) (aiResult : AIVerdict)
    (text : String) (now : Nat) : CombinedAnalysis :=
  let keywordScore : ℚ := (keywordResult.score : ℚ)
  let aiScore := aiResult.confidence * 100
  let finalScore := keywordScore * (6/10) + aiScore * (4/10)
  let isSuspicious := keywordResult.flagged || aiResult.isSuspicious
  let overallSeverity :=
    if keywordResult.severity = .critical ∨
        (aiResult.isSuspicious ∧ (8:ℚ)/10 < aiResult.confidence) then Severity.critical
    else if keywordResult.severity = .high ∨
        (aiResult.isSuspicious ∧ (6:ℚ)/10 < aiResult.confidence) then Severity.high
    else if keywordResult.severity = .medium ∨ aiResult.isSuspicious then Severity.medium
    else Severity.low
  let recommendation :=
    if overallSeverity = .critical then
      "🚨 DANGER: This is very likely a scam. Do NOT respond or provide any information."
    else if overallSeverity = .high then
      "⚠️ HIGH RISK: This message shows many signs of a scam. Be extremely cautious."
    else if overallSeverity = .medium then
      "⚡ CAUTION: This message has some suspicious elements. Verify before taking action."
    else "✅ This message appears safe, but always stay vigilant."
  { isSuspicious := isSuspicious,
    overallSeverity := overallSeverity,
    keywordDetection := keywordResult,
    aiDetection := aiResult,
    finalScore := finalScore,
    recommendation := recommendation,
    timestamp := now,
    messageText := text }

/-- Spec side: the highest severity occurring in a list, `low` when empty. -/
def maxSeverity (sevs : List Severity) : Severity :=
  sevs.foldr (fun s m => if severityRanks m < severityRanks s then s else m) .low

/-- Spec side (§4.1 step 5): the escalation policy as a function of the multiset
of detail severities — critical-count ≥ 2, or a critical together with a high,
escalates to critical; otherwise the maximum severity present (low if none). -/
def specSeverityOfDetails (sevs : List Severity) : Severity :=
  if 2 ≤ sevs.count .critical ∨ (1 ≤ sevs.count .critical ∧ 1 ≤ sevs.count .high) then
    .critical
  else maxSeverity sevs

/-- The rank-to-severity mapping at the end of `calculateOverallSeverity`. -/
def severityOfRank (n : Nat) : Severity :=
  if n = 4 then .critical else if n = 3 then .high else if n = 2 then .medium else .low

/-- All details a single keyword contributes, in match order. -/
def detailsOfKws (t : List Char) (sev : Severity) : List String → List MatchDetail
  | [] => []
  | kw :: rest =>
    (matchPositions t kw.data).map (mkDetail t kw sev) ++ detailsOfKws t sev rest

/-- All details of a scan, in category/keyword/position order. -/
def detailsOf (t : List Char) : List KeywordCategory → List MatchDetail
  | [] => []
  | cat :: rest => detailsOfKws t cat.severity cat.keywords ++ detailsOf t rest

/-- The score contributed by a keyword list at `k` points per occurrence. -/
def scoreOfKws (t : List Char) (k : Nat) : List String → Nat
  | [] => 0
  | kw :: rest => (matchPositions t kw.data).length * k + scoreOfKws t k rest

/-- The total score of a scan. -/
def scoreOf (t : List Char) : List KeywordCategory → Nat
  | [] => 0
  | cat :: rest =>
    scoreOfKws t (severityScores cat.severity * cat.weight) cat.keywords + scoreOf t rest

theorem posFold_spec (t : List Char) (kw : String) (sev : Severity) (k : Nat)
    (ps : List Nat) :
    ∀ acc : List MatchDetail × List String × Nat,
      ∃ ms, ps.foldl (posStep t kw sev k) acc =
        (acc.1 ++ ps.map (mkDetail t kw sev), ms, acc.2.2 + ps.length * k) := by
  induction ps with
  | nil => intro acc; exact ⟨acc.2.1, by simp⟩
  | cons p ps ih =>
    intro acc
    obtain ⟨ms, h⟩ := ih (posStep t kw sev k acc p)
    refine ⟨ms, ?_⟩
    rw [List.foldl_cons, h]
    simp only [posStep, List.map_cons, List.length_cons, List.append_assoc,
      List.singleton_append, Prod.mk.injEq]
    and_intros <;> first | trivial | ring

theorem kwFold_spec (t : List Char) (sev : Severity) (k : Nat) (kws : List String) :
    ∀ acc : List MatchDetail × List String × Nat,
      ∃ ms, kws.foldl (kwStep t sev k) acc =
        (acc.1 ++ detailsOfKws t sev kws, ms, acc.2.2 + scoreOfKws t k kws) := by
  induction kws with
  | nil => intro acc; exact ⟨acc.2.1, by simp [detailsOfKws, scoreOfKws]⟩
  | cons kw kws ih =>
    intro acc
    obtain ⟨ms2, h2⟩ := ih (kwStep t sev k acc kw)
    obtain ⟨ms1, h1⟩ := posFold_spec t kw sev k (matchPositions t kw.data) acc
    refine ⟨ms2, ?_⟩
    rw [List.foldl_cons, h2]
    show ((kwStep t sev k acc kw).1 ++ detailsOfKws t sev kws, ms2,
      (kwStep t sev k acc kw).2.2 + scoreOfKws t k kws) = _
    rw [show kwStep t sev k acc kw = _ from h1]
    simp only [detailsOfKws, scoreOfKws, List.append_assoc, Prod.mk.injEq]
    and_intros <;> first | trivial | ring

theorem catFold_spec (t : List Char) (cats : List KeywordCategory) :
    ∀ acc : List MatchDetail × List String × Nat,
      ∃ ms, cats.foldl (catStep t) acc =
        (acc.1 ++ detailsOf t cats, ms, acc.2.2 + scoreOf t cats) := by
  induction cats with
  | nil => intro acc; exact ⟨acc.2.1, by simp [detailsOf, scoreOf]⟩
  | cons cat cats ih =>
    intro acc
    obtain ⟨ms2, h2⟩ := ih (catStep t acc cat)
    obtain ⟨ms1, h1⟩ := kwFold_spec t cat.severity
      (severityScores cat.severity * cat.weight) cat.keywords acc
    refine ⟨ms2, ?_⟩
    rw [List.foldl_cons, h2]
    show ((catStep t acc cat).1 ++ detailsOf t cats, ms2,
      (catStep t acc cat).2.2 + scoreOf t cats) = _
    rw [show catStep t acc cat = _ from h1]
    simp only [detailsOf, scoreOf, List.append_assoc, Prod.mk.injEq]
    and_intros <;> first | trivial | ring

theorem scan_details (cats : List KeywordCategory) (text : String) :
    (scan cats text).details = detailsOf text.data cats := by
  obtain ⟨ms, h⟩ := catFold_spec text.data cats ([], [], 0)
  simp [scan, h]

theorem scan_score (cats : List KeywordCategory) (text : String) :
    (scan cats text).score = scoreOf text.data cats := by
  obtain ⟨ms, h⟩ := catFold_spec text.data cats ([], [], 0)
  simp [scan, h]

theorem scan_severity (cats : List KeywordCategory) (text : String) :
    (scan cats text).severity = calculateOverallSeverity (detailsOf text.data cats) := by
  obtain ⟨ms, h⟩ := catFold_spec text.data cats ([], [], 0)
  simp [scan, h]

theorem scan_flagged (cats : List KeywordCategory) (text : String) :
    (scan cats text).flagged = decide (0 < (detailsOf text.data cats).length) := by
  obtain ⟨ms, h⟩ := catFold_spec text.data cats ([], [], 0)
  simp [scan, h]

/-- The maximal severity rank of a detail list (0 when empty). -/
def rankFoldD : List MatchDetail → Nat
  | [] => 0
  | d :: tl => max (severityRanks d.severity) (rankFoldD tl)

/-- The maximal severity rank of a severity list (0 when empty). -/
def rankFoldS : List Severity → Nat
  | [] => 0
  | s :: tl => max (severityRanks s) (rankFoldS tl)

/-- The number of details with a given severity. -/
def countSevD (s : Severity) : List MatchDetail → Nat
  | [] => 0
  | d :: tl => (if d.severity = s then 1 else 0) + countSevD s tl

theorem sevFold_spec (l : List MatchDetail) :
    ∀ m c h : Nat,
      l.foldl (fun acc d =>
        (max acc.1 (severityRanks d.severity),
         if d.severity = .critical then acc.2.1 + 1 else acc.2.1,
         if d.severity = .high then acc.2.2 + 1 else acc.2.2)) (m, c, h) =
      (max m (rankFoldD l), c + countSevD .critical l, h + countSevD .high l) := by
  induction l with
  | nil => intro m c h; simp [rankFoldD, countSevD]
  | cons d tl ih =>
    intro m c h
    rw [List.foldl_cons, ih]
    cases hd : d.severity <;>
      simp [rankFoldD, countSevD, hd, severityRanks, Nat.max_assoc] <;> omega

theorem severityOfRank_rank (s : Severity) : severityOfRank (severityRanks s) = s := by
  cases s <;> rfl

theorem severityRanks_bounds (s : Severity) :
    1 ≤ severityRanks s ∧ severityRanks s ≤ 4 := by
  cases s <;> simp [severityRanks]

theorem rankFoldS_le (sevs : List Severity) : rankFoldS sevs ≤ 4 := by
  induction sevs with
  | nil => simp [rankFoldS]
  | cons s tl ih => have := severityRanks_bounds s; simp [rankFoldS]; omega

theorem rank_severityOfRank (n : Nat) (h : n ≤ 4) :
    severityRanks (severityOfRank n) = max 1 n := by
  interval_cases n <;> rfl

theorem maxSeverity_eq (sevs : List Severity) :
    maxSeverity sevs = severityOfRank (max 1 (rankFoldS sevs)) := by
  induction sevs with
  | nil => rfl
  | cons s tl ih =>
    have hb := severityRanks_bounds s
    have hle := rankFoldS_le tl
    show (if severityRanks (maxSeverity tl) < severityRanks s then s else maxSeverity tl) = _
    rw [ih, rank_severityOfRank _ (by omega)]
    rw [show rankFoldS (s :: tl) = max (severityRanks s) (rankFoldS tl) from rfl]
    rw [show (1:Nat) ⊔ (1 ⊔ rankFoldS tl) = 1 ⊔ rankFoldS tl by omega]
    by_cases hlt : max 1 (rankFoldS tl) < severityRanks s
    · rw [if_pos hlt,
        show (1:Nat) ⊔ (severityRanks s ⊔ rankFoldS tl) = severityRanks s by omega,
        severityOfRank_rank]
    · rw [if_neg hlt,
        show (1:Nat) ⊔ (severityRanks s ⊔ rankFoldS tl) = 1 ⊔ rankFoldS tl by omega]

theorem countSevD_eq (s : Severity) (l : List MatchDetail) :
    countSevD s l = (l.map MatchDetail.severity).count s := by
  induction l with
  | nil => simp [countSevD]
  | cons d tl ih =>
    simp only [countSevD, ih, List.map_cons, List.count_cons, beq_iff_eq]
    split <;> omega

theorem rankFoldD_eq (l : List MatchDetail) :
    rankFoldD l = rankFoldS (l.map MatchDetail.severity) := by
  induction l with
  | nil => rfl
  | cons d tl ih => simp [rankFoldD, rankFoldS, ih]

theorem calculateOverallSeverity_spec (l : List MatchDetail) :
    calculateOverallSeverity l = specSeverityOfDetails (l.map MatchDetail.severity) := by
  cases l with
  | nil => decide
  | cons d tl =>
    unfold calculateOverallSeverity
    rw [if_neg (by simp)]
    rw [sevFold_spec]
    simp only [Nat.zero_max, Nat.zero_add]
    rw [countSevD_eq, countSevD_eq, rankFoldD_eq]
    unfold specSeverityOfDetails
    by_cases hc : 2 ≤ ((d :: tl).map MatchDetail.severity).count Severity.critical ∨
        (1 ≤ ((d :: tl).map MatchDetail.severity).count Severity.critical ∧
         1 ≤ ((d :: tl).map MatchDetail.severity).count Severity.high)
    · rw [if_pos hc, if_pos hc]
    · rw [if_neg hc, if_neg hc, maxSeverity_eq]
      have h1 : 1 ≤ rankFoldS ((d :: tl).map MatchDetail.severity) := by
        have := severityRanks_bounds d.severity
        simp only [List.map_cons, rankFoldS]
        omega
      have : max 1 (rankFoldS ((d :: tl).map MatchDetail.severity)) =
          rankFoldS ((d :: tl).map MatchDetail.severity) := by omega
      rw [this]
      rfl

theorem rankFoldS_perm {sevs sevs' : List Severity} (p : sevs.Perm sevs') :
    rankFoldS sevs = rankFoldS sevs' := by
  induction p with
  | nil => rfl
  | cons x _ ih => simp [rankFoldS, ih]
  | swap x y l => simp [rankFoldS]; omega
  | trans _ _ ih1 ih2 => exact ih1.trans ih2

theorem specSeverityOfDetails_perm {sevs sevs' : List Severity} (p : sevs.Perm sevs') :
    specSeverityOfDetails sevs = specSeverityOfDetails sevs' := by
  unfold specSeverityOfDetails
  rw [p.count_eq, p.count_eq, maxSeverity_eq, maxSeverity_eq, rankFoldS_perm p]

/-- C1: for every input text, the overall severity of `scan` is a pure,
order-independent function of the multiset of `MatchDetail` severities: at
least two critical details, or at least one critical together with at least
one high detail, escalate to `critical`; otherwise the result is the highest
severity rank occurring among the details, and `low` when there are none
(`specSeverityOfDetails` states exactly this rule). -/
theorem scan_severity_escalation :
    (∀ l l' : List MatchDetail, l.Perm l' →
      calculateOverallSeverity l = calculateOverallSeverity l') ∧
    (∀ (cats : List KeywordCategory) (text : String),
      (scan cats text).severity =
        specSeverityOfDetails ((scan cats text).details.map MatchDetail.severity)) := by
  constructor
  · intro l l' hp
    rw [calculateOverallSeverity_spec, calculateOverallSeverity_spec]
    exact specSeverityOfDetails_perm (hp.map _)
  · intro cats text
    rw [scan_severity, scan_details]
    exact calculateOverallSeverity_spec _

/-- Witness for C1 at concrete inputs: a transposed two-detail list gets the
same overall severity, and the scan of a concrete text satisfies the
multiset rule. -/
theorem scan_severity_escalation_witness :
    calculateOverallSeverity
      [{ keyword := "a", severity := .critical, position := 0, context := "a" },
       { keyword := "b", severity := .high, position := 2, context := "b" }] =
    calculateOverallSeverity
      [{ keyword := "b", severity := .high, position := 2, context := "b" },
       { keyword := "a", severity := .critical, position := 0, context := "a" }] ∧
    (scan categories "hello").severity =
      specSeverityOfDetails ((scan categories "hello").details.map MatchDetail.severity) :=
  ⟨scan_severity_escalation.1 _ _ (List.Perm.swap _ _ _),
   scan_severity_escalation.2 categories "hello"⟩

theorem scoreOfKws_eq (t : List Char) (k : Nat) (kws : List String) :
    scoreOfKws t k kws =
      (kws.map (fun kw => (matchPositions t kw.data).length * k)).sum := by
  induction kws with
  | nil => rfl
  | cons kw kws ih => simp [scoreOfKws, ih]

theorem scoreOf_eq (t : List Char) (cats : List KeywordCategory) :
    scoreOf t cats = (cats.map (fun cat => (cat.keywords.map (fun kw =>
      (matchPositions t kw.data).length *
        (severityScores cat.severity * cat.weight))).sum)).sum := by
  induction cats with
  | nil => rfl
  | cons cat cats ih => simp [scoreOf, ih, scoreOfKws_eq]

theorem detailsOfKws_length (t : List Char) (sev : Severity) (kws : List String) :
    (detailsOfKws t sev kws).length =
      (kws.map (fun kw => (matchPositions t kw.data).length)).sum := by
  induction kws with
  | nil => rfl
  | cons kw kws ih => simp [detailsOfKws, ih]

theorem detailsOf_length (t : List Char) (cats : List KeywordCategory) :
    (detailsOf t cats).length = (cats.map (fun cat => (cat.keywords.map (fun kw =>
      (matchPositions t kw.data).length)).sum)).sum := by
  induction cats with
  | nil => rfl
  | cons cat cats ih => simp [detailsOf, ih, detailsOfKws_length]

/-- C2: the scan score is the sum, over every match occurrence (each
`MatchDetail`, occurrences of the same phrase at different offsets counted
separately), of `severityScore(category severity) × category weight`, where
severityScore maps low, medium, high, critical to 1, 3, 6, 10.  The second
equation identifies occurrences with details one-for-one. -/
theorem scan_score_is_weighted_sum :
    (∀ (cats : List KeywordCategory) (text : String),
      (scan cats text).score =
        (cats.map (fun cat => (cat.keywords.map (fun kw =>
          (matchPositions text.data kw.data).length *
            (severityScores cat.severity * cat.weight))).sum)).sum ∧
      (scan cats text).details.length =
        (cats.map (fun cat => (cat.keywords.map (fun kw =>
          (matchPositions text.data kw.data).length)).sum)).sum) ∧
    severityScores .low = 1 ∧ severityScores .medium = 3 ∧
    severityScores .high = 6 ∧ severityScores .critical = 10 := by
  refine ⟨fun cats text => ⟨?_, ?_⟩, rfl, rfl, rfl, rfl⟩
  · rw [scan_score, scoreOf_eq]
  · rw [scan_details, detailsOf_length]

theorem char_toNat_ofNat_valid (n : Nat) (h : n.isValidChar) : (Char.ofNat n).toNat = n := by
  simp [Char.ofNat, h]
  rfl

theorem char_toLower_idem (c : Char) : c.toLower.toLower = c.toLower := by
  by_cases h : c.toNat ≥ 65 ∧ c.toNat ≤ 90
  · have hv : (c.toNat + 32).isValidChar := Or.inl (by omega)
    simp only [Char.toLower, if_pos h, char_toNat_ofNat_valid _ hv]
    rw [if_neg (by omega)]
  · simp only [Char.toLower, if_neg h]

theorem map_toLower_idem (l : List Char) :
    (l.map Char.toLower).map Char.toLower = l.map Char.toLower := by
  rw [List.map_map]
  exact List.map_congr_left (fun c _ => char_toLower_idem c)

theorem wholeWordAt_map_toLower (t kw : List Char) (i : Nat) :
    wholeWordAt t (kw.map Char.toLower) i = wholeWordAt t kw i := by
  have hmap : List.map (Char.toLower ∘ Char.toLower) kw = List.map Char.toLower kw :=
    List.map_congr_left (fun c _ => char_toLower_idem c)
  simp [wholeWordAt, matchesAt, hmap]

theorem wholeWordAt_le {text kw : List Char} {i : Nat}
    (h : wholeWordAt text kw i = true) : i + kw.length ≤ text.length := by
  have h' := h
  simp only [wholeWordAt, matchesAt, Bool.and_eq_true, decide_eq_true_eq] at h'
  exact h'.1.1.1

theorem matchPositionsAux_ne_nil {text kw : List Char} (j : Nat)
    (hj : wholeWordAt text kw j = true) :
    ∀ fuel i : Nat, i ≤ j → text.length + 1 - i ≤ fuel →
      matchPositionsAux text kw i fuel ≠ [] := by
  intro fuel
  induction fuel with
  | zero =>
    intro i hij hf
    have hb := wholeWordAt_le hj
    omega
  | succ fuel ih =>
    intro i hij hf
    unfold matchPositionsAux
    by_cases hlen : text.length < i
    · have hb := wholeWordAt_le hj
      omega
    · rw [if_neg hlen]
      by_cases hm : wholeWordAt text kw i = true
      · rw [if_pos hm]
        simp
      · rw [if_neg hm]
        have hne : i ≠ j := fun he => hm (he ▸ hj)
        exact ih (i + 1) (by omega) (by omega)

theorem matchPositions_ne_nil {text kw : List Char} {j : Nat}
    (hj : wholeWordAt text kw j = true) : matchPositions text kw ≠ [] :=
  matchPositionsAux_ne_nil j hj (text.length + 1) 0 (Nat.zero_le j) (by omega)

theorem addToFirst_mem {cats : List KeywordCategory} {sev : Severity} (nkw : String)
    (h : ∃ c ∈ cats, c.severity = sev) :
    ∃ cat ∈ addToFirst cats sev nkw, nkw ∈ cat.keywords := by
  induction cats with
  | nil => simp at h
  | cons c cs ih =>
    unfold addToFirst
    by_cases hc : c.severity = sev
    · rw [if_pos hc]
      by_cases hk : c.keywords.contains nkw
      · rw [if_pos hk]
        exact ⟨c, List.mem_cons_self _ _, by simpa using hk⟩
      · rw [if_neg hk]
        exact ⟨{ c with keywords := c.keywords ++ [nkw] }, List.mem_cons_self _ _, by simp⟩
    · rw [if_neg hc]
      have h' : ∃ c' ∈ cs, c'.severity = sev := by
        obtain ⟨c', hc', hs⟩ := h
        rcases List.mem_cons.mp hc' with rfl | hmem
        · exact absurd hs hc
        · exact ⟨c', hmem, hs⟩
      obtain ⟨cat, hcat, hmem⟩ := ih h'
      exact ⟨cat, List.mem_cons_of_mem _ hcat, hmem⟩

theorem addCustomKeyword_mem (cats : List KeywordCategory) (kw : String)
    (sev : Severity) (w : Nat) :
    ∃ cat ∈ addCustomKeyword cats kw sev w, toLowerCase kw ∈ cat.keywords := by
  unfold addCustomKeyword
  by_cases h : cats.any (fun c => c.severity = sev)
  · rw [if_pos h]
    exact addToFirst_mem _ (by simpa using h)
  · rw [if_neg h]
    exact ⟨_, List.mem_append_right _ (List.mem_cons_self _ _), List.mem_cons_self _ _⟩

theorem scan_flagged_of_mem {cats : List KeywordCategory} {text : String}
    {cat : KeywordCategory} {kw : String} (hcat : cat ∈ cats)
    (hkw : kw ∈ cat.keywords) (hm : matchPositions text.data kw.data ≠ []) :
    (scan cats text).flagged = true := by
  rw [scan_flagged]
  simp only [decide_eq_true_eq, detailsOf_length]
  have h1 : 0 < (matchPositions text.data kw.data).length := List.length_pos.mpr hm
  have h2 : (matchPositions text.data kw.data).length ≤
      (cat.keywords.map (fun kw => (matchPositions text.data kw.data).length)).sum :=
    List.single_le_sum (fun x _ => Nat.zero_le x) _ (List.mem_map_of_mem _ hkw)
  have h3 : (cat.keywords.map (fun kw => (matchPositions text.data kw.data).length)).sum ≤
      (cats.map (fun cat => (cat.keywords.map (fun kw =>
        (matchPositions text.data kw.data).length)).sum)).sum :=
    List.single_le_sum (fun x _ => Nat.zero_le x) _ (List.mem_map_of_mem _ hcat)
  omega

theorem detailsOfKws_nil_of_no_match {t : List Char} {sev : Severity}
    {kws : List String} (h : ∀ kw ∈ kws, matchPositions t kw.data = []) :
    detailsOfKws t sev kws = [] := by
  induction kws with
  | nil => rfl
  | cons kw kws ih =>
    simp only [detailsOfKws, h kw (List.mem_cons_self _ _), List.map_nil, List.nil_append]
    exact ih (fun k hk => h k (List.mem_cons_of_mem _ hk))

theorem detailsOf_nil_of_no_match {t : List Char} {cats : List KeywordCategory}
    (h : ∀ cat ∈ cats, ∀ kw ∈ cat.keywords, matchPositions t kw.data = []) :
    detailsOf t cats = [] := by
  induction cats with
  | nil => rfl
  | cons cat cats ih =>
    simp only [detailsOf,
      detailsOfKws_nil_of_no_match (h cat (List.mem_cons_self _ _)), List.nil_append]
    exact ih (fun c hc => h c (List.mem_cons_of_mem _ hc))

/-- C9 (amended): for every nonempty phrase, severity, weight and every text
containing the phrase as a whole word, `addCustomKeyword` followed by `scan`
flags the text.  After `removeKeyword(phrase)` the scan is unflagged provided
no keyword remaining in the post-removal configuration occurs in the text as a
whole word — removal of the phrase alone does not guarantee an unflagged
result, since other configured keywords (or mixed-case built-ins that
`removeKeyword` cannot touch) may still match.  (The nonemptiness hypothesis
reflects that the source's regex loop does not terminate on an empty phrase.) -/
theorem add_remove_scan_flagging :
    (∀ (cats : List KeywordCategory) (phrase : String) (sev : Severity) (w : Nat)
        (text : String) (i : Nat),
      phrase ≠ "" → wholeWordAt text.data phrase.data i = true →
      (scan (addCustomKeyword cats phrase sev w) text).flagged = true) ∧
    (∀ (cats : List KeywordCategory) (phrase : String) (text : String),
      (∀ cat ∈ (removeKeyword cats phrase).1, ∀ kw ∈ cat.keywords,
        matchPositions text.data kw.data = []) →
      (scan (removeKeyword cats phrase).1 text).flagged = false) := by
  constructor
  · intro cats phrase sev w text i _ hww
    obtain ⟨cat, hcat, hmem⟩ := addCustomKeyword_mem cats phrase sev w
    have hlow : wholeWordAt text.data (toLowerCase phrase).data i = true := by
      show wholeWordAt text.data (phrase.data.map Char.toLower) i = true
      rw [wholeWordAt_map_toLower]
      exact hww
    exact scan_flagged_of_mem hcat hmem (matchPositions_ne_nil hlow)
  · intro cats phrase text h
    rw [scan_flagged, detailsOf_nil_of_no_match h]
    simp

/-- Witness for C9 at concrete inputs: adding the custom phrase `zorblax` makes
a text containing it flagged; removing from a configuration none of whose
remaining keywords occur in `zzz qqq` leaves that text unflagged. -/
theorem add_remove_scan_flagging_witness :
    (scan (addCustomKeyword categories "zorblax" .medium 4) "zorblax here").flagged = true ∧
    (scan (removeKeyword categories "x").1 "zzz qqq").flagged = false :=
  ⟨add_remove_scan_flagging.1 categories "zorblax" .medium 4 "zorblax here" 0
      (by decide) (by decide),
   add_remove_scan_flagging.2 categories "x" "zzz qqq" (by decide)⟩

/-- Counterexample to C9 as stated: the text `urgent delivery` contains the
custom phrase `urgent delivery` as a whole word, yet after adding and then
removing that phrase the scan is still flagged — the built-in keyword
`urgent` matches. -/
theorem add_remove_scan_flagging_counterexample :
    wholeWordAt "urgent delivery".data "urgent delivery".data 0 = true ∧
    (scan ((removeKeyword (addCustomKeyword categories "urgent delivery" .low 5)
        "urgent delivery").1) "urgent delivery").flagged = true := by
  exact ⟨by decide, by decide⟩

/-- The lowercase forms of every built-in phrase stored with an uppercase letter. -/
def mixedCaseBuiltinsLower : List String :=
  ["itunes card", "google play card", "amazon card", "irs", "fbi", "apple id",
   "icloud account", "microsoft account", "google account", "amazon account",
   "paypal account", "netflix account", "facebook account"]

/-- C10: `removeKeyword` lowercases its argument and removes only exact string
matches, so a built-in phrase stored with an uppercase letter (iTunes card,
IRS, FBI, Apple ID, ...) can never be removed: for every argument naming such
a phrase the call returns `false` and leaves every category unchanged, while
`scan` keeps matching those phrases case-insensitively (shown here for `IRS`
matched inside lowercase text). -/
theorem removeKeyword_mixed_case :
    (∀ kw : String, toLowerCase kw ∈ mixedCaseBuiltinsLower →
      removeKeyword categories kw = (categories, false)) ∧
    (scan categories "the irs called").«matches» = ["IRS"] := by
  constructor
  · intro kw hkw
    unfold removeKeyword
    revert hkw
    generalize toLowerCase kw = n
    intro hkw
    fin_cases hkw <;> decide
  · decide

/-- Witness for C10: the exact built-in spelling `IRS` itself cannot be removed. -/
theorem removeKeyword_mixed_case_witness :
    removeKeyword categories "IRS" = (categories, false) :=
  removeKeyword_mixed_case.1 "IRS" (by decide)

/-- Spec side (§4.3 step 3, as claimed): the combined-severity rule with
non-strict thresholds on the classifier confidence. -/
def specCombinedSeverity (kr : DetectionResult) (ar : AIVerdict) : Severity :=
  if kr.severity = .critical ∨ (ar.isSuspicious ∧ (8:ℚ)/10 ≤ ar.confidence) then .critical
  else if kr.severity = .high ∨ (ar.isSuspicious ∧ (6:ℚ)/10 ≤ ar.confidence) then .high
  else if kr.severity = .medium ∨ ar.isSuspicious then .medium
  else .low

/-- The severity rule `combineResults` actually implements: strict thresholds
on the classifier confidence. -/
def specCombinedSeverityStrict (kr : DetectionResult) (ar : AIVerdict) : Severity :=
  if kr.severity = .critical ∨ (ar.isSuspicious ∧ (8:ℚ)/10 < ar.confidence) then .critical
  else if kr.severity = .high ∨ (ar.isSuspicious ∧ (6:ℚ)/10 < ar.confidence) then .high
  else if kr.severity = .medium ∨ ar.isSuspicious then .medium
  else .low

/-- The severity rule `background.ts` actually implements: non-strict
thresholds applied to the blended score, and a medium tier that fires on
blended score ≥ 0.4 even when the classifier is not suspicious. -/
def specBackgroundSeverity (ks : Severity) (aiSuspicious : Bool) (score : ℚ) : Severity :=
  if ks = .critical ∨ (aiSuspicious ∧ (8:ℚ)/10 ≤ score) then .critical
  else if ks = .high ∨ (aiSuspicious ∧ (6:ℚ)/10 ≤ score) then .high
  else if ks = .medium ∨ (4:ℚ)/10 ≤ score then .medium
  else .low

/-- Counterexample to C3 as stated: at classifier confidence exactly 0.8 with a
low keyword severity, the claimed rule gives `critical` but `combineResults`
gives `high` (its thresholds are strict). -/
theorem combined_severity_counterexample :
    specCombinedSeverity
      { flagged := false, score := 0, «matches» := [], severity := .low, details := [] }
      { isSuspicious := true, reason := "r", confidence := 8/10 } = Severity.critical ∧
    (combineResults
      { flagged := false, score := 0, «matches» := [], severity := .low, details := [] }
      { isSuspicious := true, reason := "r", confidence := 8/10 } "t" 0).overallSeverity =
      Severity.high := by
  constructor
  · norm_num [specCombinedSeverity]
  · norm_num [combineResults]
    exact fun h => absurd h (by decide)

/-- C3 (amended): `combineResults` escalates in priority order with *strict*
thresholds: critical when the keyword severity is critical or the classifier is
suspicious with confidence strictly above 0.8; otherwise high when the keyword
severity is high or the confidence is strictly above 0.6; otherwise medium when
the keyword severity is medium or the classifier is suspicious at all;
otherwise low.  The `background.ts` variant instead applies non-strict
thresholds to the blended score, and its medium tier fires on blended
score ≥ 0.4 regardless of the suspicion flag. -/
theorem combined_severity_rule :
    (∀ (kr : DetectionResult) (ar : AIVerdict) (text : String) (now : Nat),
      (combineResults kr ar text now).overallSeverity = specCombinedSeverityStrict kr ar) ∧
    (∀ (ks : Severity) (aiSuspicious : Bool) (score : ℚ),
      determineOverallSeverity ks aiSuspicious score =
        specBackgroundSeverity ks aiSuspicious score) :=
  ⟨fun _ _ _ _ => rfl, fun _ _ _ => rfl⟩

/-- Spec side (§4.3 step 2, as claimed): suspicious iff flagged with severity
other than low, or the classifier flags, or the blended score reaches the 0.5
suspicion threshold. -/
def specIsSuspicious (kr : DetectionResult) (ar : AIVerdict) (finalScore : ℚ) : Prop :=
  (kr.flagged = true ∧ kr.severity ≠ .low) ∨ ar.isSuspicious = true ∨
    (5:ℚ)/10 ≤ finalScore

/-- Counterexample to C4 as stated: a keyword result that is flagged with
severity `low`, classifier silent, blended score 0 — the claimed rule says not
suspicious, but `combineResults` flags it (it tests `flagged` alone). -/
theorem combined_suspicion_counterexample :
    (combineResults
      { flagged := true, score := 0, «matches» := [], severity := .low, details := [] }
      { isSuspicious := false, reason := "r", confidence := 0 } "t" 0).isSuspicious = true ∧
    ¬ specIsSuspicious
      { flagged := true, score := 0, «matches» := [], severity := .low, details := [] }
      { isSuspicious := false, reason := "r", confidence := 0 }
      (combineResults
        { flagged := true, score := 0, «matches» := [], severity := .low, details := [] }
        { isSuspicious := false, reason := "r", confidence := 0 } "t" 0).finalScore := by
  constructor
  · norm_num [combineResults]
  · norm_num [specIsSuspicious, combineResults]

/-- C4 (amended): `combineResults` flags exactly when the keyword result is
flagged (regardless of its severity) or the classifier flags; the
`background.ts` variant flags exactly when the blended score reaches 0.5, the
keyword severity is critical, or the classifier flags. -/
theorem combined_suspicion_rule :
    (∀ (kr : DetectionResult) (ar : AIVerdict) (text : String) (now : Nat),
      (combineResults kr ar text now).isSuspicious = (kr.flagged || ar.isSuspicious)) ∧
    (∀ (kr : DetectionResult) (ar : AIVerdict) (text : String) (now : Nat),
      (analyzeTextCore kr ar text now).isSuspicious =
        (decide ((5:ℚ)/10 ≤ (analyzeTextCore kr ar text now).finalScore) ||
         decide (kr.severity = Severity.critical) || ar.isSuspicious)) :=
  ⟨fun _ _ _ _ => rfl, fun _ _ _ _ => rfl⟩

/-- Spec side (§4.3 step 1, as claimed): the blend of the normalized keyword
score (capped at 200, clamped to at most 1) and the classifier confidence,
weighted 0.6 / 0.4. -/
def specFinalScore (rawScore confidence : ℚ) : ℚ :=
  min (rawScore / 200) 1 * (6/10) + confidence * (4/10)

/-- Counterexample to C5 as stated: at raw keyword score 0 and confidence 1 the
two combiner implementations disagree — `background.ts` produces 0.4, the
`part_002` `combineResults` produces 40. -/
theorem final_score_blend_counterexample :
    (analyzeTextCore
      { flagged := false, score := 0, «matches» := [], severity := .low, details := [] }
      { isSuspicious := false, reason := "r", confidence := 1 } "t" 0).finalScore = 2/5 ∧
    (combineResults
      { flagged := false, score := 0, «matches» := [], severity := .low, details := [] }
      { isSuspicious := false, reason := "r", confidence := 1 } "t" 0).finalScore = 40 := by
  constructor
  · norm_num [analyzeTextCore, normalizeScore]
  · norm_num [combineResults]

/-- C5 (amended): `background.ts` computes exactly the claimed normalized blend
`0.6 × min(raw/200, 1) + 0.4 × confidence`; the `part_002` `combineResults`
instead blends the raw keyword score with the confidence scaled to 0-100
(`0.6 × raw + 0.4 × 100 × confidence`), so the two implementations do not
compute the same finalScore (see the counterexample). -/
theorem final_score_blend :
    (∀ (kr : DetectionResult) (ar : AIVerdict) (text : String) (now : Nat),
      (analyzeTextCore kr ar text now).finalScore =
        specFinalScore (kr.score : ℚ) ar.confidence) ∧
    (∀ (kr : DetectionResult) (ar : AIVerdict) (text : String) (now : Nat),
      (combineResults kr ar text now).finalScore =
        (kr.score : ℚ) * (6/10) + ar.confidence * 100 * (4/10)) :=
  ⟨fun _ _ _ _ => rfl, fun _ _ _ _ => rfl⟩

theorem signalStep_nonneg {cond : Bool} {inc : ℚ} {frag : String}
    {acc : ℚ × List String} (h : 0 ≤ acc.1) (hinc : 0 ≤ inc) :
    0 ≤ (signalStep cond inc frag acc).1 := by
  unfold signalStep
  split
  · exact add_nonneg h hinc
  · exact h

theorem mockSignals_nonneg (message : String) : 0 ≤ (mockSignals message).1 := by
  unfold mockSignals
  exact signalStep_nonneg (signalStep_nonneg (signalStep_nonneg (signalStep_nonneg
    (signalStep_nonneg (signalStep_nonneg (signalStep_nonneg (signalStep_nonneg
      (le_refl 0) (by norm_num)) (by norm_num)) (by norm_num)) (by norm_num))
    (by norm_num)) (by norm_num)) (by norm_num)) (by norm_num)

/-- Counterexample to C6 as stated: in delegated mode a successful response
carrying confidence 5 is passed through unclamped. -/
theorem confidence_clamped_counterexample :
    (classifyWithAI
      { apiEndpoint := "https://x.example", apiKey := "k", mockMode := false }
      (.success { isSuspicious := some true, reason := some "r", confidence := some 5 })
      "hello").confidence = 5 ∧ ¬ ((5:ℚ) ≤ 1) := by
  have hne : ¬ (("https://x.example" : String) = "") := by decide
  have hr : ¬ (("r" : String) = "") := by decide
  constructor
  · norm_num [classifyWithAI, remoteVerdict, hne, hr]
  · norm_num

/-- C6 (amended): a heuristic verdict always has confidence within [0, 1]
(the minimum of the accumulated nonnegative signal score and 1), and so does
any verdict produced after a delegated failure, since it falls back to the
heuristic; but a successful remote response's confidence is used without
clamping, so out-of-range remote values pass through (see the counterexample). -/
theorem confidence_clamped_heuristic :
    (∀ message : String, 0 ≤ (mockClassify message).confidence ∧
      (mockClassify message).confidence ≤ 1) ∧
    (∀ (cfg : ClassifierConfig) (message : String),
      0 ≤ (classifyWithAI cfg .failure message).confidence ∧
      (classifyWithAI cfg .failure message).confidence ≤ 1) := by
  have hmock : ∀ message : String, 0 ≤ (mockClassify message).confidence ∧
      (mockClassify message).confidence ≤ 1 := by
    intro message
    show 0 ≤ min (mockSignals message).1 1 ∧ min (mockSignals message).1 1 ≤ 1
    exact ⟨le_min (mockSignals_nonneg message) zero_le_one, min_le_right _ _⟩
  refine ⟨hmock, fun cfg message => ?_⟩
  have hfall : classifyWithAI cfg .failure message = mockClassify message := by
    unfold classifyWithAI
    split <;> rfl
  rw [hfall]
  exact hmock message

/-- C7 (amended): the heuristic verdict's confidence is the minimum of the
accumulated signal score and 1; the verdict is suspicious exactly when the
confidence is at least 0.4; and the reason is the joined list of triggered
fragments when the verdict is suspicious, otherwise the fixed nothing-detected
message — even when some signals triggered but the score stayed below 0.4
(see the counterexample). -/
theorem mockClassify_rule :
    ∀ message : String,
      (mockClassify message).confidence = min (mockSignals message).1 1 ∧
      ((mockClassify message).isSuspicious = true ↔
        (4:ℚ)/10 ≤ (mockClassify message).confidence) ∧
      (mockClassify message).reason =
        (if (4:ℚ)/10 ≤ (mockSignals message).1 then
          String.intercalate "; " (mockSignals message).2
         else "No significant suspicious patterns detected") := by
  intro message
  refine ⟨rfl, ?_, ?_⟩
  · show decide ((4:ℚ)/10 ≤ (mockSignals message).1) = true ↔
      (4:ℚ)/10 ≤ min (mockSignals message).1 1
    rw [decide_eq_true_iff]
    constructor
    · intro h
      exact le_min h (by norm_num)
    · intro h
      exact le_trans h (min_le_left _ _)
  · by_cases h : (4:ℚ)/10 ≤ (mockSignals message).1
    · simp [mockClassify, h]
    · simp [mockClassify, h]

/-- Counterexample to C7 as stated: on `please confirm` one signal fragment
triggers, yet the reason is the fixed nothing-detected message because the
accumulated score 0.2 stays below the 0.4 suspicion threshold. -/
theorem mockClassify_reason_counterexample :
    (mockSignals "please confirm").2 = ["Requests verification"] ∧
    (mockClassify "please confirm").reason =
      "No significant suspicious patterns detected" := by
  have hs : (mockSignals "please confirm").1 = 2/10 := by
    simp +decide [mockSignals, signalStep]
  have hns : ¬ ((4:ℚ)/10 ≤ (mockSignals "please confirm").1) := by
    rw [hs]; norm_num
  exact ⟨by decide, by simp [mockClassify, hns]⟩

/-- C8: whenever the delegated request fails in any way — non-success status,
transport error, or malformed response, all of which throw and are modelled by
`FetchOutcome.failure` — `classifyWithAI` returns exactly the heuristic
evaluator's verdict for the same text; the embedding is a total function into
`AIVerdict`, so no error is propagated to the caller. -/
theorem classifier_failure_fallback :
    ∀ (cfg : ClassifierConfig) (message : String),
      classifyWithAI cfg .failure message = mockClassify message := by
  intro cfg message
  unfold classifyWithAI
  split <;> rfl
